import Mathlib

/-!
Verification of the TriBFT consensus core (OMNeT++ simulation sources)
against its natural-language specification.

The C++ sources are shallowly embedded: classes become structures, member
functions become pure functions taking and returning the state, machine
integers become Nat or Int (heights and views only ever increase by one,
so no wrap-around is reachable at the operations modelled here), doubles
become rationals or reals, and callbacks become returned values.  Member
functions whose bodies are hidden in the source tree (marked there with a
comment saying the core implementation is hidden) are modelled from the
specification; each such definition carries a doc comment starting with
the words Modelled from the spec.
-/

/-  The rational arithmetic in the embeddings below is evaluated on
concrete inputs by the decide tactic, which requires the core rational
operations to be unfoldable by the elaborator. -/
attribute [local semireducible] Rat.sub Rat.add Rat.mul Rat.inv

namespace TriBFT

/-- Node identity, an opaque string (type alias NodeID in TriBFTDefs.h). -/
abbrev NodeID := String

/-- Shard identifier, a small integer where minus one means none. -/
abbrev ShardID := Int

/-- Block height counter (uint64_t in the source, modelled as Nat). -/
abbrev BlockHeight := Nat

/-- View number counter (uint64_t in the source, modelled as Nat). -/
abbrev ViewNumber := Nat

/-- Simulation time, modelled as a natural number of ticks; the engine only
ever stores and compares it, so the carrier is irrelevant. -/
abbrev SimTime := Nat

/-- Consensus phases, enum class ConsensusPhase in TriBFTDefs.h. -/
inductive ConsensusPhase where
  | IDLE
  | PREPARE
  | PRE_COMMIT
  | COMMIT
deriving DecidableEq, Repr

/-- Transaction structure from TriBFTDefs.h; value is a double in the
source, modelled as a rational (it is never inspected by the core). -/
structure Transaction where
  txID : String
  sender : NodeID
  receiver : NodeID
  value : ℚ
  timestamp : SimTime
  data : String
deriving DecidableEq, Repr

/-- Consensus proposal structure from TriBFTDefs.h. -/
structure ConsensusProposal where
  proposalID : String
  blockHeight : BlockHeight
  viewNumber : ViewNumber
  leaderID : NodeID
  shardID : ShardID
  proposalTime : SimTime
  transactions : List Transaction
  blockHash : String
deriving DecidableEq, Repr

/-- Default-constructed proposal (ConsensusProposal constructor). -/
def ConsensusProposal.empty : ConsensusProposal :=
  { proposalID := "", blockHeight := 0, viewNumber := 0, leaderID := "",
    shardID := -1, proposalTime := 0, transactions := [], blockHash := "" }

/-- Vote information structure from TriBFTDefs.h. -/
structure VoteInfo where
  proposalID : String
  voterID : NodeID
  phase : ConsensusPhase
  approve : Bool
  voteTime : SimTime
  signature : String
deriving DecidableEq, Repr

/-- Quorum certificate structure from TriBFTDefs.h. -/
structure QuorumCertificate where
  proposalID : String
  phase : ConsensusPhase
  blockHeight : BlockHeight
  viewNumber : ViewNumber
  votes : List VoteInfo
  totalVotes : Int
  timestamp : SimTime
deriving DecidableEq, Repr

/-- Default-constructed quorum certificate. -/
def QuorumCertificate.empty : QuorumCertificate :=
  { proposalID := "", phase := ConsensusPhase.IDLE, blockHeight := 0,
    viewNumber := 0, votes := [], totalVotes := 0, timestamp := 0 }

/-- Consensus metrics counters from TriBFTDefs.h (the subset the engine
touches). -/
structure ConsensusMetrics where
  totalProposals : Nat
  successfulCommits : Nat
  failedConsensus : Nat
deriving DecidableEq, Repr

def ConsensusMetrics.empty : ConsensusMetrics :=
  { totalProposals := 0, successfulCommits := 0, failedConsensus := 0 }

/-!  The HotStuff consensus engine, HotStuffEngine.h / HotStuffEngine.cc.
The vote store, a map from proposal id to a map from phase to a vector of
votes in the source, is modelled as a flat list; the vector stored under a
pair of keys is recovered by filtering, which preserves the push_back
order. -/

structure HotStuffEngine where
  nodeID : NodeID
  shardID : ShardID
  shardSize : Int
  currentPhase : ConsensusPhase
  currentView : ViewNumber
  currentHeight : BlockHeight
  hasActiveProposal : Bool
  currentProposal : ConsensusProposal
  consensusStartTime : SimTime
  voteStore : List VoteInfo
  highestQC : QuorumCertificate
  previousBlockHash : String
  metrics : ConsensusMetrics
deriving DecidableEq, Repr

namespace HotStuffEngine

/-- Engine state after HotStuffEngine::initialize(nodeID, shardID)
(the name is changed because the source name is unavailable here). -/
def initState (nodeID : NodeID) (shardID : ShardID) : HotStuffEngine :=
  { nodeID := nodeID, shardID := shardID, shardSize := 0,
    currentPhase := ConsensusPhase.IDLE, currentView := 0, currentHeight := 0,
    hasActiveProposal := false, currentProposal := ConsensusProposal.empty,
    consensusStartTime := 0, voteStore := [],
    highestQC := QuorumCertificate.empty, previousBlockHash := "",
    metrics := ConsensusMetrics.empty }

/-- HotStuffEngine::setShardSize. -/
def setShardSize (e : HotStuffEngine) (size : Int) : HotStuffEngine :=
  { e with shardSize := size }

/-- HotStuffEngine::getQuorumSize.  The source returns the fixed constant 2
(its comment says: use fixed small quorum, ignore shardSize_ to avoid
quorum inconsistency from dynamic node joins). -/
def getQuorumSize (_e : HotStuffEngine) : Nat := 2

/-- HotStuffEngine::validateProposal.  Note that in the source the shard
membership check is commented out (marked TEMPORARILY DISABLED FOR
TESTING), so this embedding does not compare proposal.shardID with the
engine shard either. -/
def validateProposal (e : HotStuffEngine) (p : ConsensusProposal) : Bool :=
  if p.proposalID = "" ∨ p.blockHash = "" then false
  else if p.blockHeight ≠ e.currentHeight + 1 then false
  else if p.viewNumber < e.currentView then false
  else if p.transactions = [] then false
  else p.transactions.all (fun tx => tx.txID ≠ "" ∧ tx.sender ≠ "")

/-- HotStuffEngine::sendVote builds the vote that is handed to the vote
callback; the embedding returns it. -/
def sendVote (e : HotStuffEngine) (p : ConsensusProposal)
    (phase : ConsensusPhase) (approve : Bool) (now : SimTime) : VoteInfo :=
  { proposalID := p.proposalID, voterID := e.nodeID, phase := phase,
    approve := approve, voteTime := now,
    signature := e.nodeID ++ "_" ++ p.proposalID }

/-- HotStuffEngine::handleProposal.  Returns the updated engine state and
the Prepare vote emitted through the vote callback. -/
def handleProposal (e : HotStuffEngine) (p : ConsensusProposal)
    (now : SimTime) : HotStuffEngine × VoteInfo :=
  if validateProposal e p then
    ({ e with currentProposal := p, hasActiveProposal := true,
              currentPhase := ConsensusPhase.PREPARE,
              consensusStartTime := now },
     sendVote e p ConsensusPhase.PREPARE true now)
  else
    (e, sendVote e p ConsensusPhase.PREPARE false now)

/-- Votes stored under voteStore_[proposalID][phase] in the source. -/
def votesFor (e : HotStuffEngine) (pid : String)
    (phase : ConsensusPhase) : List VoteInfo :=
  e.voteStore.filter (fun v => v.proposalID = pid ∧ v.phase = phase)

/-- HotStuffEngine::createQC (the totalVotes field is left at its
default-constructed value of zero, exactly as in the source). -/
def createQC (e : HotStuffEngine) (pid : String)
    (phase : ConsensusPhase) : QuorumCertificate :=
  { proposalID := pid, phase := phase,
    blockHeight := e.currentProposal.blockHeight,
    viewNumber := e.currentView,
    votes := votesFor e pid phase, totalVotes := 0, timestamp := 0 }

/-- Modelled from the spec: the body of HotStuffEngine::hasQuorum is hidden
in the source tree.  Following the phase-advance protocol of the spec, a
phase has reached quorum when the number of collected votes for the
proposal and phase reaches the quorum size. -/
def hasQuorum (e : HotStuffEngine) (pid : String)
    (phase : ConsensusPhase) : Bool :=
  getQuorumSize e ≤ (votesFor e pid phase).length

/-- HotStuffEngine::resetConsensusState. -/
def resetConsensusState (e : HotStuffEngine) : HotStuffEngine :=
  { e with currentPhase := ConsensusPhase.IDLE, hasActiveProposal := false,
           voteStore := [] }

/-- Modelled from the spec: the body of HotStuffEngine::commitBlock is
hidden in the source tree.  Following the Commit paragraph of the spec:
increment the height, remember the committed block hash, count the commit
and reset to IDLE. -/
def commitBlock (e : HotStuffEngine) : HotStuffEngine :=
  resetConsensusState
    { e with currentHeight := e.currentHeight + 1,
             previousBlockHash := e.currentProposal.blockHash,
             metrics := { e.metrics with
                          successfulCommits := e.metrics.successfulCommits + 1 } }

/-- Modelled from the spec: the body of HotStuffEngine::advancePhase is
hidden in the source tree.  Following the phase-advance protocol of the
spec: assemble the QC for the finished phase, store it as the highest QC,
and move to the successor phase; a Commit-phase quorum commits the block. -/
def advancePhase (e : HotStuffEngine) : HotStuffEngine :=
  let qc := createQC e e.currentProposal.proposalID e.currentPhase
  let e1 := { e with highestQC := qc }
  match e.currentPhase with
  | ConsensusPhase.PREPARE => { e1 with currentPhase := ConsensusPhase.PRE_COMMIT }
  | ConsensusPhase.PRE_COMMIT => { e1 with currentPhase := ConsensusPhase.COMMIT }
  | ConsensusPhase.COMMIT => commitBlock e1
  | ConsensusPhase.IDLE => e1

/-- HotStuffEngine::handleVote.  A vote for an unknown proposal is ignored;
otherwise the vote is appended to the store unconditionally and, when the
vote is for the current phase and quorum is now reached, the phase
advances (the hidden quorum and advance steps are the spec-modelled
functions above).  Votes for past or future phases are only logged. -/
def handleVote (e : HotStuffEngine) (v : VoteInfo) : HotStuffEngine :=
  if ¬ e.hasActiveProposal ∨ v.proposalID ≠ e.currentProposal.proposalID then e
  else if v.phase = e.currentPhase then
    (if hasQuorum { e with voteStore := e.voteStore ++ [v] } v.proposalID
          e.currentPhase then
      advancePhase { e with voteStore := e.voteStore ++ [v] }
    else { e with voteStore := e.voteStore ++ [v] })
  else { e with voteStore := e.voteStore ++ [v] }

end HotStuffEngine

/-- Quorum size as the specification words it: the ceiling of two thirds of
the committee primary size, plus one, floored at two.  This definition
follows the spec sentence, not the source, and is compared against the
source function in the claims below. -/
def specQuorumSize (N : Nat) : Nat := max 2 ((2 * N + 2) / 3 + 1)

/-!  Concrete inputs used by the claim theorems and witnesses below. -/

/-- A well-formed transaction. -/
def sampleTx : Transaction :=
  { txID := "t1", sender := "s1", receiver := "r1", value := 0,
    timestamp := 0, data := "" }

/-- A proposal that is valid in every respect except that its shard id (2)
differs from the receiving replica's shard id (1). -/
def wrongShardProposal : ConsensusProposal :=
  { proposalID := "p1", blockHeight := 1, viewNumber := 0, leaderID := "L",
    shardID := 2, proposalTime := 0, transactions := [sampleTx],
    blockHash := "h1" }

/-- A replica engine freshly started on shard 1. -/
def replicaEngine : HotStuffEngine := HotStuffEngine.initState "n1" 1

/-- A proposal on the replica's own shard, used for vote handling. -/
def activeProposal : ConsensusProposal :=
  { proposalID := "p1", blockHeight := 1, viewNumber := 0, leaderID := "L",
    shardID := 1, proposalTime := 0, transactions := [sampleTx],
    blockHash := "h1" }

/-- An engine that accepted activeProposal and has advanced to PRE_COMMIT. -/
def engineInPreCommit : HotStuffEngine :=
  { HotStuffEngine.initState "n1" 1 with
    hasActiveProposal := true,
    currentPhase := ConsensusPhase.PRE_COMMIT,
    currentProposal := activeProposal }

/-- A Prepare-phase vote for activeProposal from voter v1; it arrives while
the engine is already in PRE_COMMIT, so handling it only stores it. -/
def lateVote : VoteInfo :=
  { proposalID := "p1", voterID := "v1", phase := ConsensusPhase.PREPARE,
    approve := true, voteTime := 0, signature := "v1_p1" }

/-!  Association lists standing in for std::map.  Lookup finds the first
matching key; aset updates in place or appends; aerase removes the entry.
They model exactly the map operations the sources use (find, operator
bracket assignment, erase). -/

/-- Lookup in an association list (std::map find). -/
def alookup {K V : Type} [DecidableEq K] : List (K × V) → K → Option V
  | [], _ => none
  | (k, v) :: rest, key => if k = key then some v else alookup rest key

/-- Update-or-insert in an association list (std::map operator bracket on
assignment).  Values for existing keys are replaced in place; new keys are
appended, which for the shard map coincides with ascending key order
because shard ids are allocated increasingly. -/
def aset {K V : Type} [DecidableEq K] : List (K × V) → K → V → List (K × V)
  | [], key, val => [(key, val)]
  | (k, v) :: rest, key, val =>
      if k = key then (key, val) :: rest else (k, v) :: aset rest key val

/-- Erase a key from an association list (std::map erase). -/
def aerase {K V : Type} [DecidableEq K] : List (K × V) → K → List (K × V)
  | [], _ => []
  | (k, v) :: rest, key => if k = key then rest else (k, v) :: aerase rest key

/-!  Lightweight sync, LightweightSync.h / LightweightSync.cc.  Only the
header-chain state is modelled; the full-block cache, pending-request map
and role flag are untouched by the header-sync path the claims are about. -/

/-- Block header structure from LightweightSync.h. -/
structure BlockHeader where
  height : BlockHeight
  blockHash : String
  previousHash : String
  merkleRoot : String
  shardID : ShardID
  timestamp : SimTime
  proposer : NodeID
  txCount : Int
deriving DecidableEq, Repr

/-- Header-chain state of the LightweightSync class. -/
structure LightweightSync where
  headers : List (BlockHeight × BlockHeader)
  latestHeight : BlockHeight
deriving DecidableEq, Repr

namespace LightweightSync

/-- Freshly initialized sync state. -/
def initState : LightweightSync := { headers := [], latestHeight := 0 }

/-- LightweightSync::getHeader. -/
def getHeader (s : LightweightSync) (h : BlockHeight) : Option BlockHeader :=
  alookup s.headers h

/-- LightweightSync::hasHeader. -/
def hasHeader (s : LightweightSync) (h : BlockHeight) : Bool :=
  (getHeader s h).isSome

/-- LightweightSync::validateHeaderChain.  Height zero always passes; when
the previous header is unknown, the header is allowed exactly when the
store is still empty (the source comment: if this is the first block
header, allow); otherwise the previous hash and the height increment are
checked against the stored predecessor. -/
def validateHeaderChain (s : LightweightSync) (hd : BlockHeader) : Bool :=
  if hd.height = 0 then true
  else
    match getHeader s (hd.height - 1) with
    | none => s.headers.isEmpty
    | some prev =>
        if hd.previousHash ≠ prev.blockHash then false
        else if hd.height ≠ prev.height + 1 then false
        else true

/-- LightweightSync::syncHeader.  Returns the boolean result together with
the updated state; on rejection the state is returned unchanged. -/
def syncHeader (s : LightweightSync) (hd : BlockHeader) :
    Bool × LightweightSync :=
  if validateHeaderChain s hd then
    (true,
     { headers := aset s.headers hd.height hd,
       latestHeight :=
         if s.latestHeight < hd.height then hd.height else s.latestHeight })
  else (false, s)

end LightweightSync

/-- A header at height 5 offered to an empty header store. -/
def header5 : BlockHeader :=
  { height := 5, blockHash := "b5", previousHash := "unknown",
    merkleRoot := "m5", shardID := 0, timestamp := 0, proposer := "L",
    txCount := 1 }

/-- Genesis header used by the C8 witness. -/
def genesisHeader : BlockHeader :=
  { height := 0, blockHash := "b0", previousHash := "",
    merkleRoot := "m0", shardID := 0, timestamp := 0, proposer := "L",
    txCount := 1 }

/-- Header at height 1 correctly chained onto the genesis header. -/
def header1 : BlockHeader :=
  { height := 1, blockHash := "b1", previousHash := "b0",
    merkleRoot := "m1", shardID := 0, timestamp := 0, proposer := "L",
    txCount := 1 }

/-- Sync state that already knows the genesis header. -/
def syncState0 : LightweightSync :=
  { headers := [(0, genesisHeader)], latestHeight := 0 }

/-!  VRF committee selector, VRFSelector.h / VRFSelector.cc.  The bodies of
VRFSelector::electConsensusGroup and VRFSelector::calculateVRF are hidden
in the source tree, so the election algorithm is modelled from section 4.B
of the spec. -/

/-- Node roles, enum class NodeRole in VRFSelector.h. -/
inductive NodeRole where
  | ORDINARY
  | CONSENSUS_PRIMARY
  | CONSENSUS_REDUNDANT
  | RSU_PERMANENT
deriving DecidableEq, Repr

/-- Consensus group structure from VRFSelector.h. -/
structure ConsensusGroup where
  primaryNodes : List NodeID
  redundantNodes : List NodeID
  rsuCount : Nat
  vehicleCount : Nat
  epoch : Nat
deriving DecidableEq, Repr

/-- ConsensusGroup::satisfiesRSUConstraint from VRFSelector.h: the RSU
count must be at least the primary size divided by three (integer, hence
floor, division as in the C++ source). -/
def ConsensusGroup.satisfiesRSUConstraint (g : ConsensusGroup) : Bool :=
  g.primaryNodes.length / 3 ≤ g.rsuCount

/-- One FNV-1a round over a 64-bit accumulator. -/
def fnvStep (h : Nat) (b : Nat) : Nat := ((h ^^^ b) * 1099511628211) % (2 ^ 64)

/-- Finalization round folding the upper word into the lower word, so that
a change anywhere in the input disturbs the whole hash. -/
def mix (h : Nat) : Nat := fnvStep (h / 2 ^ 32) (h % 2 ^ 32)

/-- Modelled from the spec: the body of VRFSelector::calculateVRF is hidden
in the source tree.  The spec asks for a pseudo-random score obtained from
a stable 64-bit string hash of the node id concatenated with the seed; we
use FNV-1a 64 over the characters of the node id, a separator and the
decimal digits of the seed, followed by two mixing rounds. -/
def hashVRF (n : NodeID) (seed : Nat) : Nat :=
  mix (mix ((n ++ "_" ++ toString seed).data.foldl
    (fun h c => fnvStep h c.toNat) 14695981039346656037))

/-- Sort order used by the election: descending VRF score, ties broken by
ascending node id (spec section 4.B, step 2). -/
def vrfLE (seed : Nat) (a b : NodeID) : Prop :=
  hashVRF b seed < hashVRF a seed ∨ (hashVRF a seed = hashVRF b seed ∧ a ≤ b)

instance (seed : Nat) : DecidableRel (vrfLE seed) := fun a b => by
  unfold vrfLE; infer_instance

/-- RSU membership test: the node appears in the RSU list. -/
def isRsu (rsus : List NodeID) (n : NodeID) : Bool := n ∈ rsus

/-- Number of RSU nodes in a list. -/
def rsuCountIn (rsus : List NodeID) (l : List NodeID) : Nat :=
  l.countP (isRsu rsus)

/-- Remove the first element satisfying the predicate. -/
def eraseFirstP {α : Type} (p : α → Bool) : List α → List α
  | [] => []
  | x :: xs => if p x then xs else x :: eraseFirstP p xs

/-- Modelled from the spec: step 4 of the election algorithm.  While the
primary set holds fewer RSUs than the target, promote the highest-scored
remaining RSU into the primary set and demote the lowest-scored non-RSU
primary, stopping when the target is met, the remaining candidates hold no
RSU, or the primary set holds no non-RSU.  Both lists stay sorted by
descending score, so the first RSU of the remainder is the highest-scored
one and the last non-RSU of the primary list is the lowest-scored one.
The fuel argument bounds the number of swaps; each swap adds one RSU to
the primary set, so a fuel equal to the target suffices. -/
def promoteLoop (rsus : List NodeID) (need : Nat) :
    Nat → List NodeID → List NodeID → List NodeID × List NodeID
  | 0, prim, rest => (prim, rest)
  | fuel + 1, prim, rest =>
      if rsuCountIn rsus prim < need then
        match rest.find? (isRsu rsus),
              prim.reverse.find? (fun n => ! isRsu rsus n) with
        | some r, some v =>
            promoteLoop rsus need fuel
              ((eraseFirstP (fun n => ! isRsu rsus n) prim.reverse).reverse
                ++ [r])
              (eraseFirstP (isRsu rsus) rest ++ [v])
        | _, _ => (prim, rest)
      else (prim, rest)

/-- Modelled from the spec: the body of VRFSelector::electConsensusGroup is
hidden in the source tree.  Following section 4.B: score every candidate,
sort by descending score with ties on ascending id, take the top G as
provisional primaries, promote RSUs until the floor of G over three is met
or RSUs run out, then take the next K remaining candidates as redundant
members. -/
def electConsensusGroup (candidates rsus : List NodeID)
    (groupSize redundantCount seed : Nat) : ConsensusGroup :=
  let sorted := List.insertionSort (vrfLE seed) candidates
  let pr := promoteLoop rsus (groupSize / 3) (groupSize / 3)
              (sorted.take groupSize) (sorted.drop groupSize)
  { primaryNodes := pr.1,
    redundantNodes := pr.2.take redundantCount,
    rsuCount := rsuCountIn rsus pr.1,
    vehicleCount := pr.1.length - rsuCountIn rsus pr.1,
    epoch := 0 }

/-!  Regional shard manager, RegionalShardManager.h / RegionalShardManager.cc
and the geographic structures of TriBFTDefs.h.  Coordinates are rationals;
the source compares Euclidean distances (square roots of sums of squares)
against each other and against the nonnegative radius, and every such
comparison is represented by the same comparison of squared distances,
which the monotonicity of the square root makes equivalent. -/

/-- Shard levels, enum class ShardLevel in TriBFTDefs.h. -/
inductive ShardLevel where
  | REGIONAL
  | CITY
  | GLOBAL
deriving DecidableEq, Repr

/-- Geographic coordinate from TriBFTDefs.h. -/
structure GeoCoord where
  latitude : ℚ
  longitude : ℚ
deriving DecidableEq, Repr

/-- Squared Euclidean distance; stands in for GeoCoord::distanceTo, whose
comparisons the embedding performs on squares. -/
def distSq (a b : GeoCoord) : ℚ :=
  (a.latitude - b.latitude) ^ 2 + (a.longitude - b.longitude) ^ 2

/-- Shard information structure from TriBFTDefs.h; the member set is kept
as a duplicate-free list. -/
structure ShardInfo where
  shardID : ShardID
  level : ShardLevel
  centerPoint : GeoCoord
  radius : ℚ
  members : List NodeID
  leader : NodeID
  creationTime : SimTime
  lastUpdate : SimTime
deriving DecidableEq, Repr

/-- ShardInfo::contains: the location lies within the radius of the center
(squared-distance form of the source's distanceTo comparison). -/
def ShardInfo.containsLoc (s : ShardInfo) (loc : GeoCoord) : Bool :=
  distSq s.centerPoint loc ≤ s.radius ^ 2

/-- Set-style insertion into the member list (std::set insert). -/
def insertSet (l : List NodeID) (n : NodeID) : List NodeID :=
  if n ∈ l then l else l ++ [n]

/-- State of the RegionalShardManager class.  The VRF-selector and
consensus-group maps are untouched by the membership operations the
claims are about and are not modelled. -/
structure RegionalShardManager where
  shards : List (ShardID × ShardInfo)
  nodeShardMap : List (NodeID × ShardID)
  nodeLocationMap : List (NodeID × GeoCoord)
  nodeReputationMap : List (NodeID × ℚ)
  nextShardID : ShardID
  shardRadius : ℚ
  minShardSize : Nat
  maxShardSize : Nat
  totalJoins : Nat
  totalLeaves : Nat
  totalSplits : Nat
  totalMerges : Nat
deriving DecidableEq, Repr

namespace RegionalShardManager

/-- Manager state after construction plus
RegionalShardManager::initialize(shardRadius, minShardSize, maxShardSize)
(the source name of the second call is unavailable here). -/
def initMgr (shardRadius : ℚ) (minShardSize maxShardSize : Nat) :
    RegionalShardManager :=
  { shards := [], nodeShardMap := [], nodeLocationMap := [],
    nodeReputationMap := [], nextShardID := 0, shardRadius := shardRadius,
    minShardSize := minShardSize, maxShardSize := maxShardSize,
    totalJoins := 0, totalLeaves := 0, totalSplits := 0, totalMerges := 0 }

/-- RegionalShardManager::getShardInfo. -/
def getShardInfo (m : RegionalShardManager) (sid : ShardID) :
    Option ShardInfo :=
  alookup m.shards sid

/-- RegionalShardManager::canAcceptMember. -/
def canAcceptMember (m : RegionalShardManager) (sid : ShardID) : Bool :=
  match alookup m.shards sid with
  | some s => s.members.length < m.maxShardSize
  | none => false

/-- Iteration core of RegionalShardManager::getShardForLocation: walk the
shard map in order, keeping the closest shard that contains the location
and can accept a member; the accumulator pairs the best shard id with its
squared distance, none standing for the initial infinite distance. -/
def gsflGo (m : RegionalShardManager) (loc : GeoCoord) :
    List (ShardID × ShardInfo) → ShardID × Option ℚ → ShardID × Option ℚ
  | [], acc => acc
  | p :: rest, acc =>
      if p.2.containsLoc loc ∧ canAcceptMember m p.1 then
        match acc.2 with
        | none => gsflGo m loc rest (p.1, some (distSq p.2.centerPoint loc))
        | some md =>
            if distSq p.2.centerPoint loc < md then
              gsflGo m loc rest (p.1, some (distSq p.2.centerPoint loc))
            else gsflGo m loc rest acc
      else gsflGo m loc rest acc

/-- RegionalShardManager::getShardForLocation. -/
def getShardForLocation (m : RegionalShardManager) (loc : GeoCoord) :
    ShardID :=
  (gsflGo m loc m.shards (-1, none)).1

/-- RegionalShardManager::findNearestShard: closest shard center with no
radius or capacity filter. -/
def fnsGo (loc : GeoCoord) :
    List (ShardID × ShardInfo) → ShardID × Option ℚ → ShardID × Option ℚ
  | [], acc => acc
  | p :: rest, acc =>
      match acc.2 with
      | none => fnsGo loc rest (p.1, some (distSq p.2.centerPoint loc))
      | some md =>
          if distSq p.2.centerPoint loc < md then
            fnsGo loc rest (p.1, some (distSq p.2.centerPoint loc))
          else fnsGo loc rest acc

/-- RegionalShardManager::findNearestShard. -/
def findNearestShard (m : RegionalShardManager) (loc : GeoCoord) : ShardID :=
  (fnsGo loc m.shards (-1, none)).1

/-- RegionalShardManager::createShard: allocate the next shard id and
insert an empty shard with the default radius at the given center. -/
def createShard (m : RegionalShardManager) (center : GeoCoord) :
    ShardID × RegionalShardManager :=
  (m.nextShardID,
   { m with
     nextShardID := m.nextShardID + 1,
     shards := aset m.shards m.nextShardID
       { shardID := m.nextShardID, level := ShardLevel.REGIONAL,
         centerPoint := center, radius := m.shardRadius, members := [],
         leader := "", creationTime := 0, lastUpdate := 0 } })

/-- Reputation of a node as stored by the manager. -/
def repOf (m : RegionalShardManager) (n : NodeID) : ℚ :=
  (alookup m.nodeReputationMap n).getD 0

/-- Modelled from the spec: the body of
RegionalShardManager::electLeaderByReputation is hidden in the source
tree.  Following the spec: among the members choose the one with the
highest final reputation, breaking ties by ascending node id; the empty
string when there are no members. -/
def bestLeader (m : RegionalShardManager) (members : List NodeID) : NodeID :=
  members.foldl
    (fun best n =>
      if best = "" then n
      else if repOf m best < repOf m n ∨
          (repOf m n = repOf m best ∧ n < best) then n
      else best) ""

/-- RegionalShardManager::electLeader: store the elected leader in the
shard record. -/
def electLeader (m : RegionalShardManager) (sid : ShardID) :
    RegionalShardManager :=
  match alookup m.shards sid with
  | none => m
  | some s =>
      { m with shards := (aset m.shards sid
          { s with leader := bestLeader m s.members }) }

/-- RegionalShardManager::shouldSplitShard. -/
def shouldSplitShard (m : RegionalShardManager) (sid : ShardID) : Bool :=
  match alookup m.shards sid with
  | some s => m.maxShardSize < s.members.length
  | none => false

/-- RegionalShardManager::shouldMergeShard. -/
def shouldMergeShard (m : RegionalShardManager) (sid : ShardID) : Bool :=
  match alookup m.shards sid with
  | some s => s.members.length < m.minShardSize
  | none => false

/-- RegionalShardManager::calculateSplitPoint: centroid of the member
locations, or the center when no member location is known. -/
def calculateSplitPoint (m : RegionalShardManager) (s : ShardInfo) :
    GeoCoord :=
  let pts := s.members.filterMap (fun n => alookup m.nodeLocationMap n)
  if pts = [] then s.centerPoint
  else
    { latitude := (pts.map (fun p => p.latitude)).sum / pts.length,
      longitude := (pts.map (fun p => p.longitude)).sum / pts.length }

/-- RegionalShardManager::splitShard: refuse when the shard is missing or
no larger than the minimum size; otherwise create a new shard at the
member centroid, move every member strictly closer to the centroid than
to the original center, and re-elect both leaders. -/
def splitShard (m : RegionalShardManager) (sid : ShardID) :
    RegionalShardManager :=
  match alookup m.shards sid with
  | none => m
  | some s =>
      if s.members.length ≤ m.minShardSize then m
      else
        let splitPoint := calculateSplitPoint m s
        let created := createShard m splitPoint
        let toMove := s.members.filter (fun n =>
          match alookup m.nodeLocationMap n with
          | some loc => distSq splitPoint loc < distSq s.centerPoint loc
          | none => false)
        let m2 :=
          { created.2 with
            shards :=
              aset
                (aset created.2.shards sid
                  { s with members :=
                      s.members.filter (fun n => decide (n ∉ toMove)) })
                created.1
                { shardID := created.1, level := ShardLevel.REGIONAL,
                  centerPoint := splitPoint, radius := m.shardRadius,
                  members := toMove, leader := "", creationTime := 0,
                  lastUpdate := 0 },
            nodeShardMap :=
              toMove.foldl (fun mp n => aset mp n created.1)
                created.2.nodeShardMap }
        let m3 := electLeader (electLeader m2 sid) created.1
        { m3 with totalSplits := m3.totalSplits + 1 }

/-- RegionalShardManager::mergeShard: move every member into the nearest
other shard, delete the shard and re-elect the target leader.  As in the
source, the target's maximum size is not checked. -/
def mergeShard (m : RegionalShardManager) (sid : ShardID) :
    RegionalShardManager :=
  match alookup m.shards sid with
  | none => m
  | some s =>
      let nearest := findNearestShard m s.centerPoint
      if nearest = -1 ∨ nearest = sid then m
      else
        match alookup m.shards nearest with
        | none => m
        | some t =>
            let m2 :=
              { m with
                shards :=
                  aerase
                    (aset m.shards nearest
                      { t with members := s.members.foldl insertSet t.members })
                    sid,
                nodeShardMap :=
                  s.members.foldl (fun mp n => aset mp n nearest)
                    m.nodeShardMap }
            let m3 := electLeader m2 nearest
            { m3 with totalMerges := m3.totalMerges + 1 }

/-- RegionalShardManager::addNode.  An already-placed node returns its
current shard immediately; otherwise the node's location and reputation
are stored, the best-fit shard is found or a new one created, the node
joins it, a leader is elected if the shard had none, and the shard is
split if it now exceeds the maximum size. -/
def addNode (m : RegionalShardManager) (n : NodeID) (loc : GeoCoord)
    (rep : ℚ) : ShardID × RegionalShardManager :=
  match alookup m.nodeShardMap n with
  | some sid => (sid, m)
  | none =>
      let m1 := { m with
        nodeLocationMap := aset m.nodeLocationMap n loc,
        nodeReputationMap := aset m.nodeReputationMap n rep }
      let found := getShardForLocation m1 loc
      let picked := if found = -1 then createShard m1 loc else (found, m1)
      let m3 :=
        match alookup picked.2.shards picked.1 with
        | none => picked.2
        | some s =>
            { picked.2 with
              shards := aset picked.2.shards picked.1
                { s with members := insertSet s.members n },
              nodeShardMap := aset picked.2.nodeShardMap n picked.1 }
      let m4 :=
        match alookup m3.shards picked.1 with
        | some s => if s.leader = "" then electLeader m3 picked.1 else m3
        | none => m3
      let m5 := if shouldSplitShard m4 picked.1 then splitShard m4 picked.1
                else m4
      (picked.1, { m5 with totalJoins := m5.totalJoins + 1 })

/-- RegionalShardManager::removeNode.  Unknown nodes are a no-op; otherwise
the node leaves its shard, the leader is re-elected when the leaving node
was leader, the per-node maps are cleaned, an emptied shard is deleted,
and an undersized shard is merged. -/
def removeNode (m : RegionalShardManager) (n : NodeID) :
    RegionalShardManager :=
  match alookup m.nodeShardMap n with
  | none => m
  | some sid =>
      match alookup m.shards sid with
      | none => m
      | some s =>
          let s2 :=
            if s.leader = n then
              { s with members := s.members.erase n, leader := "" }
            else { s with members := s.members.erase n }
          let m1 := { m with shards := aset m.shards sid s2 }
          let m2 := if s.leader = n ∧ s2.members ≠ [] then electLeader m1 sid
                    else m1
          let m3 := { m2 with
            nodeShardMap := aerase m2.nodeShardMap n,
            nodeLocationMap := aerase m2.nodeLocationMap n,
            nodeReputationMap := aerase m2.nodeReputationMap n }
          let m4 :=
            if s2.members = [] then
              { m3 with shards := aerase m3.shards sid }
            else if shouldMergeShard m3 sid then mergeShard m3 sid
            else m3
          { m4 with totalLeaves := m4.totalLeaves + 1 }

end RegionalShardManager

/-- Manager with radius 10, minimum shard size 1 and maximum shard size 2,
used by the shard claims. -/
def mgrA : RegionalShardManager := RegionalShardManager.initMgr 10 1 2

/-- Manager after nodes n1 at the origin and n2 at distance one joined:
shard 0 holds exactly maxShardSize = 2 members. -/
def mgrFull : RegionalShardManager :=
  (RegionalShardManager.addNode
    (RegionalShardManager.addNode mgrA "n1"
      { latitude := 0, longitude := 0 } (1 / 2)).2
    "n2" { latitude := 1, longitude := 0 } (1 / 2)).2

/-- The full shard stored in mgrFull. -/
def fullShard : ShardInfo :=
  { shardID := 0, level := ShardLevel.REGIONAL,
    centerPoint := { latitude := 0, longitude := 0 }, radius := 10,
    members := ["n1", "n2"], leader := "n1", creationTime := 0,
    lastUpdate := 0 }

/-!  Reputation manager, VRMManager.h / VRMManager.cc and the reputation
structures of TriBFTDefs.h.  Scores are doubles in the source and reals
here, because the final reputation weighs the dual scores by an
exponential of the interaction count.  The bodies of
VRMManager::getEventWeight and VRMManager::updateScore are hidden in the
source tree and are modelled from the spec. -/

/-- Reputation events, enum class ReputationEvent in TriBFTDefs.h. -/
inductive ReputationEvent where
  | SUCCESSFUL_TX
  | FAILED_TX
  | SUCCESSFUL_VOTE
  | FAILED_VOTE
  | TIMEOUT
  | MALICIOUS_BEHAVIOR
  | PROPOSE_VALID_BLOCK
  | PROPOSE_INVALID_BLOCK
  | VOTE_CORRECTLY
  | VOTE_INCORRECTLY
  | SUCCESSFUL_CONSENSUS
  | FAILED_CONSENSUS
deriving DecidableEq, Repr

/-- Event weight configuration, struct EventWeight in TriBFTDefs.h. -/
structure EventWeight where
  baseWeight : ℝ
  useMarginalDecay : Bool

/-- EventWeight::getEffectiveWeight: marginal decay divides the base
weight by one plus the current reputation; otherwise the base weight is
the fixed penalty. -/
noncomputable def EventWeight.getEffectiveWeight (w : EventWeight)
    (currentReputation : ℝ) : ℝ :=
  if w.useMarginalDecay then w.baseWeight / (1 + currentReputation)
  else w.baseWeight

/-- Reputation record, struct ReputationRecord in TriBFTDefs.h. -/
structure ReputationRecord where
  nodeID : NodeID
  globalReputation : ℝ
  localPerformance : ℝ
  localInteractionCount : Nat
  score : ℝ
  successfulTx : Nat
  failedTx : Nat
  validProposals : Nat
  totalProposals : Nat
  correctVotes : Nat
  totalVotes : Nat
  lastUpdate : SimTime
  recentEvents : List ReputationEvent

/-- Freshly constructed reputation record (ReputationRecord constructor
taking the node id): both reputation components at one half. -/
noncomputable def ReputationRecord.mkFresh (id : NodeID) : ReputationRecord :=
  { nodeID := id, globalReputation := 0.5, localPerformance := 0.5,
    localInteractionCount := 0, score := 0.5, successfulTx := 0,
    failedTx := 0, validProposals := 0, totalProposals := 0,
    correctVotes := 0, totalVotes := 0, lastUpdate := 0, recentEvents := [] }

/-- ReputationRecord::getFinalReputation: dynamic weighting of the global
and local components with weight exp of minus lambda times the local
interaction count, lambda being one tenth. -/
noncomputable def ReputationRecord.getFinalReputation
    (r : ReputationRecord) : ℝ :=
  Real.exp (-(0.1) * r.localInteractionCount) * r.globalReputation +
    (1 - Real.exp (-(0.1) * r.localInteractionCount)) * r.localPerformance

/-- VRMManager::clampReputation: clamp a score into the unit interval. -/
noncomputable def clampReputation (x : ℝ) : ℝ :=
  if x < 0 then 0 else if 1 < x then 1 else x

/-- Modelled from the spec: the body of VRMManager::getEventWeight is
hidden in the source tree.  Following the event taxonomy table of the
spec: positive events carry base weight beta = 0.05 with marginal decay;
invalid proposals are penalized by 0.08, malicious behavior by 0.20, and
the remaining negative events by 0.05, all without decay. -/
noncomputable def getEventWeight (e : ReputationEvent) : EventWeight :=
  match e with
  | ReputationEvent.SUCCESSFUL_TX => { baseWeight := 0.05, useMarginalDecay := true }
  | ReputationEvent.SUCCESSFUL_VOTE => { baseWeight := 0.05, useMarginalDecay := true }
  | ReputationEvent.VOTE_CORRECTLY => { baseWeight := 0.05, useMarginalDecay := true }
  | ReputationEvent.PROPOSE_VALID_BLOCK => { baseWeight := 0.05, useMarginalDecay := true }
  | ReputationEvent.SUCCESSFUL_CONSENSUS => { baseWeight := 0.05, useMarginalDecay := true }
  | ReputationEvent.PROPOSE_INVALID_BLOCK => { baseWeight := 0.08, useMarginalDecay := false }
  | ReputationEvent.VOTE_INCORRECTLY => { baseWeight := 0.05, useMarginalDecay := false }
  | ReputationEvent.FAILED_VOTE => { baseWeight := 0.05, useMarginalDecay := false }
  | ReputationEvent.TIMEOUT => { baseWeight := 0.05, useMarginalDecay := false }
  | ReputationEvent.FAILED_TX => { baseWeight := 0.05, useMarginalDecay := false }
  | ReputationEvent.FAILED_CONSENSUS => { baseWeight := 0.05, useMarginalDecay := false }
  | ReputationEvent.MALICIOUS_BEHAVIOR => { baseWeight := 0.20, useMarginalDecay := false }

/-- Modelled from the spec: the body of VRMManager::updateScore is hidden
in the source tree.  Following the marginal-diminishing rule of the spec:
the delta is added to the local performance component, clamped to the
unit interval, and the local interaction count is incremented; when the
count crosses the re-anchor threshold of 100, the global reputation
absorbs the local one and the count resets. -/
noncomputable def applyDelta (r : ReputationRecord) (delta : ℝ) :
    ReputationRecord :=
  let newLocal := clampReputation (r.localPerformance + delta)
  if 100 ≤ r.localInteractionCount + 1 then
    { r with localPerformance := newLocal, globalReputation := newLocal,
             localInteractionCount := 0 }
  else
    { r with localPerformance := newLocal,
             localInteractionCount := r.localInteractionCount + 1 }

/-- VRMManager::recordEvent at the level of a single record: push the
event into the recent-event queue, compute the effective weight at the
current final reputation, update the per-event counters according to the
source's switch, and apply the signed delta (the hidden updateScore being
the spec-modelled applyDelta).  Returns the new record and the applied
delta. -/
noncomputable def recordEventR (r : ReputationRecord)
    (e : ReputationEvent) : ReputationRecord × ℝ :=
  let r0 := { r with recentEvents := r.recentEvents ++ [e] }
  let alpha := (getEventWeight e).getEffectiveWeight r.getFinalReputation
  match e with
  | ReputationEvent.PROPOSE_VALID_BLOCK =>
      (applyDelta { r0 with validProposals := r0.validProposals + 1,
                            totalProposals := r0.totalProposals + 1 } alpha,
       alpha)
  | ReputationEvent.VOTE_CORRECTLY =>
      (applyDelta { r0 with correctVotes := r0.correctVotes + 1,
                            totalVotes := r0.totalVotes + 1 } alpha, alpha)
  | ReputationEvent.SUCCESSFUL_CONSENSUS => (applyDelta r0 alpha, alpha)
  | ReputationEvent.SUCCESSFUL_TX =>
      (applyDelta { r0 with successfulTx := r0.successfulTx + 1 } alpha,
       alpha)
  | ReputationEvent.SUCCESSFUL_VOTE => (applyDelta r0 alpha, alpha)
  | ReputationEvent.PROPOSE_INVALID_BLOCK =>
      (applyDelta { r0 with totalProposals := r0.totalProposals + 1 }
        (-alpha), -alpha)
  | ReputationEvent.VOTE_INCORRECTLY =>
      (applyDelta { r0 with totalVotes := r0.totalVotes + 1 } (-alpha),
       -alpha)
  | ReputationEvent.TIMEOUT => (applyDelta r0 (-alpha), -alpha)
  | ReputationEvent.MALICIOUS_BEHAVIOR => (applyDelta r0 (-alpha), -alpha)
  | ReputationEvent.FAILED_CONSENSUS => (applyDelta r0 (-alpha), -alpha)
  | ReputationEvent.FAILED_TX =>
      (applyDelta { r0 with failedTx := r0.failedTx + 1 } (-alpha), -alpha)
  | ReputationEvent.FAILED_VOTE => (applyDelta r0 (-alpha), -alpha)

/-- State of the VRMManager class: the per-node record map. -/
structure VRMManager where
  records : List (NodeID × ReputationRecord)

namespace VRMManager

/-- The empty manager (after VRMManager construction). -/
def emptyMgr : VRMManager := { records := [] }

/-- VRMManager::isRegistered. -/
def isRegistered (m : VRMManager) (n : NodeID) : Bool :=
  (alookup m.records n).isSome

/-- VRMManager::registerNode: silently keeps the existing record;
otherwise stores a fresh record whose legacy score field is the clamped
initial score. -/
noncomputable def registerNode (m : VRMManager) (n : NodeID)
    (initialScore : ℝ) : VRMManager :=
  match alookup m.records n with
  | some _ => m
  | none =>
      { records := aset m.records n
          { ReputationRecord.mkFresh n with
            score := clampReputation initialScore } }

/-- VRMManager::recordEvent: an event for an unregistered node is logged
and dropped — the map lookup fails and the function returns with the
state unchanged; otherwise the record-level update is stored. -/
noncomputable def recordEvent (m : VRMManager) (n : NodeID)
    (e : ReputationEvent) : VRMManager :=
  match alookup m.records n with
  | none => m
  | some r => { records := aset m.records n (recordEventR r e).1 }

end VRMManager

/-- Record of a fresh node that suffered one malicious-behavior penalty:
global reputation one half, local performance 0.3, one interaction. -/
noncomputable def dentedRecord : ReputationRecord :=
  (recordEventR (ReputationRecord.mkFresh "x")
    ReputationEvent.MALICIOUS_BEHAVIOR).1

end TriBFT

/-!  Claim theorems. -/

namespace TriBFT

/-- C1 counterexample: with a committee primary size of 3 the engine's
quorum size is 2, not the value ceil(2 times 3 over 3) plus 1 = 3 demanded
by the claim; getQuorumSize ignores the shard size entirely. -/
theorem quorum_size_claim_counterexample :
    HotStuffEngine.getQuorumSize
        (HotStuffEngine.setShardSize (HotStuffEngine.initState "n0" 0) 3)
      ≠ specQuorumSize 3 := by decide

/-- C1 (amended): the value used to decide that a phase has reached quorum
is the constant 2, for every engine state and every committee primary size
set through setShardSize; it never equals ceil(2N/3) + 1 for N with
ceil(2N/3) + 1 greater than 2. -/
theorem quorum_size_constant_two (e : HotStuffEngine) (n : Int) :
    HotStuffEngine.getQuorumSize (HotStuffEngine.setShardSize e n) = 2 ∧
    HotStuffEngine.getQuorumSize e = 2 :=
  ⟨rfl, rfl⟩

/-- C2 (code bug): a proposal whose shard id differs from the replica's
shard id, but which is otherwise valid, passes validateProposal and is
adopted with an approving Prepare vote, because the source's shard check
is commented out; the claim (and the spec) require a rejecting vote with
approve false. -/
theorem handle_proposal_shard_check_bug :
    wrongShardProposal.shardID ≠ replicaEngine.shardID ∧
    HotStuffEngine.validateProposal replicaEngine wrongShardProposal = true ∧
    (HotStuffEngine.handleProposal replicaEngine wrongShardProposal 0).1.hasActiveProposal
      = true ∧
    (HotStuffEngine.handleProposal replicaEngine wrongShardProposal 0).2.approve
      = true := by decide

/-- C6 counterexample: handling the same vote twice changes the stored
votes the second time as well — the duplicate from the same voter for the
same proposal and phase is appended again rather than dropped. -/
theorem handle_vote_duplicate_counterexample :
    HotStuffEngine.votesFor
        (HotStuffEngine.handleVote
          (HotStuffEngine.handleVote engineInPreCommit lateVote) lateVote)
        "p1" ConsensusPhase.PREPARE
      ≠ HotStuffEngine.votesFor
          (HotStuffEngine.handleVote engineInPreCommit lateVote)
          "p1" ConsensusPhase.PREPARE := by decide

/-- C6 (amended): the vote store performs no per-voter deduplication.
Every vote for the active proposal (here on the pure storage path, a vote
whose phase is not the current phase) is appended to the stored votes for
its proposal and phase, whether or not an identical vote from the same
voter is already stored, and the stored count grows by one each time. -/
theorem handle_vote_appends_every_vote (e : HotStuffEngine) (v : VoteInfo)
    (hact : e.hasActiveProposal = true)
    (hid : v.proposalID = e.currentProposal.proposalID)
    (hph : v.phase ≠ e.currentPhase) :
    HotStuffEngine.votesFor (HotStuffEngine.handleVote e v) v.proposalID v.phase
      = HotStuffEngine.votesFor e v.proposalID v.phase ++ [v] := by
  rw [HotStuffEngine.handleVote, if_neg (by simp [hact, hid]), if_neg hph]
  simp [HotStuffEngine.votesFor, List.filter_append]

/-- Witness for the amended C6 theorem at a concrete engine and vote. -/
theorem handle_vote_appends_every_vote_witness :
    HotStuffEngine.votesFor
        (HotStuffEngine.handleVote engineInPreCommit lateVote)
        "p1" ConsensusPhase.PREPARE
      = HotStuffEngine.votesFor engineInPreCommit "p1" ConsensusPhase.PREPARE
          ++ [lateVote] :=
  handle_vote_appends_every_vote engineInPreCommit lateVote rfl rfl (by decide)

/-- Helper: looking up the key just set returns the value just set. -/
theorem alookup_aset_self {K V : Type} [DecidableEq K]
    (m : List (K × V)) (k : K) (v : V) : alookup (aset m k v) k = some v := by
  induction m with
  | nil => simp [aset, alookup]
  | cons p rest ih =>
      obtain ⟨a, b⟩ := p
      by_cases h : a = k
      · simp [aset, alookup, h]
      · simp [aset, alookup, h, ih]

/-- Helper: the accept flag of syncHeader is exactly validateHeaderChain. -/
theorem syncHeader_fst (s : LightweightSync) (hd : BlockHeader) :
    (LightweightSync.syncHeader s hd).1 = LightweightSync.validateHeaderChain s hd := by
  unfold LightweightSync.syncHeader
  by_cases h : LightweightSync.validateHeaderChain s hd = true <;> simp [h]

/-- Helper: chain validation at positive height, characterized. -/
theorem validate_chain_pos (s : LightweightSync) (hd : BlockHeader)
    (hpos : 0 < hd.height) :
    LightweightSync.validateHeaderChain s hd = true ↔
      s.headers = [] ∨
      ∃ prev, LightweightSync.getHeader s (hd.height - 1) = some prev ∧
        hd.previousHash = prev.blockHash ∧ hd.height = prev.height + 1 := by
  unfold LightweightSync.validateHeaderChain
  rw [if_neg (Nat.pos_iff_ne_zero.mp hpos)]
  cases hlook : LightweightSync.getHeader s (hd.height - 1) with
  | none =>
      simp only [List.isEmpty_iff, hlook]
      constructor
      · intro h; exact Or.inl h
      · rintro (h | ⟨prev, hp, _, _⟩)
        · exact h
        · exact absurd hp (by simp)
  | some prev =>
      dsimp only
      constructor
      · intro h
        by_cases hhash : hd.previousHash = prev.blockHash
        · by_cases hht : hd.height = prev.height + 1
          · exact Or.inr ⟨prev, rfl, hhash, hht⟩
          · rw [if_neg (not_not_intro hhash), if_pos hht] at h
            exact absurd h (by simp)
        · rw [if_pos hhash] at h
          exact absurd h (by simp)
      · rintro (h | ⟨prev2, hp2, hhash, hht⟩)
        · exact absurd hlook (by simp [LightweightSync.getHeader, h, alookup])
        · injection hp2 with hp2
          subst hp2
          rw [if_neg (not_not_intro hhash), if_neg (not_not_intro hht)]

/-- C8 counterexample: on an empty header store, a header at height 5 is
accepted by syncHeader although no header at height 4 is known, refuting
the only-if direction of the claim. -/
theorem sync_header_claim_counterexample :
    (LightweightSync.syncHeader LightweightSync.initState header5).1 = true ∧
    LightweightSync.hasHeader LightweightSync.initState 4 = false := by decide

/-- C8 (amended): a genesis header is always accepted; a header with
positive height is accepted if and only if the header store is still empty
(the first header is allowed to bootstrap at any height) or a header at
the previous height is known whose block hash matches the new header's
previous hash and whose height plus one is the new height.  On acceptance
the header is stored and the latest height is at least the new height; on
rejection the state is unchanged and false is returned. -/
theorem sync_header_amended (s : LightweightSync) (hd : BlockHeader) :
    (hd.height = 0 → (LightweightSync.syncHeader s hd).1 = true) ∧
    (0 < hd.height →
      ((LightweightSync.syncHeader s hd).1 = true ↔
        s.headers = [] ∨
        ∃ prev, LightweightSync.getHeader s (hd.height - 1) = some prev ∧
          hd.previousHash = prev.blockHash ∧ hd.height = prev.height + 1)) ∧
    ((LightweightSync.syncHeader s hd).1 = true →
      LightweightSync.getHeader (LightweightSync.syncHeader s hd).2 hd.height
          = some hd ∧
      hd.height ≤ (LightweightSync.syncHeader s hd).2.latestHeight) ∧
    ((LightweightSync.syncHeader s hd).1 = false →
      (LightweightSync.syncHeader s hd).2 = s) := by
  refine ⟨?_, ?_, ?_, ?_⟩
  · intro h0
    rw [syncHeader_fst]
    unfold LightweightSync.validateHeaderChain
    rw [if_pos h0]
  · intro hpos
    rw [syncHeader_fst]
    exact validate_chain_pos s hd hpos
  · intro hacc
    rw [syncHeader_fst] at hacc
    unfold LightweightSync.syncHeader
    rw [if_pos hacc]
    refine ⟨alookup_aset_self s.headers hd.height hd, ?_⟩
    by_cases hlt : s.latestHeight < hd.height
    · simp [hlt]
    · simp only [if_neg hlt]
      exact Nat.le_of_not_lt hlt
  · intro hrej
    rw [syncHeader_fst] at hrej
    unfold LightweightSync.syncHeader
    rw [if_neg (by simp [hrej])]

/-- Helper: erasing the first element found by the predicate lowers the
count of that predicate by one. -/
theorem countP_eraseFirstP_self {α : Type} (p : α → Bool) :
    ∀ (l : List α) (x : α), l.find? p = some x →
      (eraseFirstP p l).countP p + 1 = l.countP p := by
  intro l
  induction l with
  | nil => intro x hx; simp [List.find?] at hx
  | cons a xs ih =>
      intro x hx
      by_cases ha : p a = true
      · simp [eraseFirstP, ha, List.countP_cons]
      · rw [List.find?_cons_of_neg _ (by simp [ha])] at hx
        simp only [eraseFirstP, ha, if_false, Bool.false_eq_true,
          List.countP_cons, ite_false]
        rw [← ih x hx]

/-- Helper: erasing the first element failing q leaves the count of q
unchanged. -/
theorem countP_eraseFirstP_not {α : Type} (q : α → Bool) :
    ∀ (l : List α) (x : α), l.find? (fun a => ! q a) = some x →
      (eraseFirstP (fun a => ! q a) l).countP q = l.countP q := by
  intro l
  induction l with
  | nil => intro x hx; simp [List.find?] at hx
  | cons a xs ih =>
      intro x hx
      by_cases ha : q a = true
      · rw [List.find?_cons_of_neg _ (by simp [ha])] at hx
        simp only [eraseFirstP, ha, Bool.not_true, if_false,
          Bool.false_eq_true, List.countP_cons]
        rw [ih x hx]
      · have ha2 : (! q a) = true := by simp [ha]
        simp [eraseFirstP, ha2, List.countP_cons, ha]

/-- Helper: erasing a found element lowers the length by one. -/
theorem length_eraseFirstP {α : Type} (p : α → Bool) :
    ∀ (l : List α) (x : α), l.find? p = some x →
      (eraseFirstP p l).length + 1 = l.length := by
  intro l
  induction l with
  | nil => intro x hx; simp [List.find?] at hx
  | cons a xs ih =>
      intro x hx
      by_cases ha : p a = true
      · simp [eraseFirstP, ha]
      · rw [List.find?_cons_of_neg _ (by simp [ha])] at hx
        simp only [eraseFirstP, ha, if_false, Bool.false_eq_true,
          List.length_cons]
        rw [← ih x hx]

/-- Helper: the length of a list splits into the count of a predicate and
the count of its negation. -/
theorem length_countP_split {alpha : Type} (p : alpha → Bool) (l : List alpha) :
    l.length = l.countP p + l.countP (fun a => ! p a) := by
  induction l with
  | nil => rfl
  | cons a xs ih =>
      by_cases h : p a = true <;>
        simp [List.countP_cons, h, ih] <;> omega

/-- Helper: the promotion loop preserves the size of the primary list. -/
theorem promoteLoop_length (rsus : List NodeID) (need : Nat) :
    ∀ (fuel : Nat) (prim rest : List NodeID),
      (promoteLoop rsus need fuel prim rest).1.length = prim.length := by
  intro fuel
  induction fuel with
  | zero => intro prim rest; rfl
  | succ fuel ih =>
      intro prim rest
      rw [promoteLoop]
      by_cases hlt : rsuCountIn rsus prim < need
      · rw [if_pos hlt]
        cases hr : rest.find? (isRsu rsus) with
        | none => rfl
        | some r =>
            cases hv : prim.reverse.find? (fun n => ! isRsu rsus n) with
            | none => rfl
            | some v =>
                rw [ih]
                have hlen := length_eraseFirstP
                  (fun n => ! isRsu rsus n) prim.reverse v hv
                simp only [List.length_append, List.length_reverse,
                  List.length_singleton]
                rw [List.length_reverse] at hlen
                omega
      · rw [if_neg hlt]

/-- Helper: after the promotion loop, either the RSU target is met, or
every candidate RSU sits in the primary list (the total count is
conserved and the remainder holds none), or the primary list consists of
RSUs only. -/
theorem promoteLoop_cases (rsus : List NodeID) (need : Nat) :
    ∀ (fuel : Nat) (prim rest : List NodeID),
      need ≤ rsuCountIn rsus prim + fuel →
      need ≤ rsuCountIn rsus (promoteLoop rsus need fuel prim rest).1 ∨
      rsuCountIn rsus (promoteLoop rsus need fuel prim rest).1
        = rsuCountIn rsus prim + rsuCountIn rsus rest ∨
      (promoteLoop rsus need fuel prim rest).1.countP
        (fun n => ! isRsu rsus n) = 0 := by
  intro fuel
  induction fuel with
  | zero =>
      intro prim rest hle
      left
      simpa using hle
  | succ fuel ih =>
      intro prim rest hle
      rw [promoteLoop]
      by_cases hlt : rsuCountIn rsus prim < need
      · rw [if_pos hlt]
        cases hr : rest.find? (isRsu rsus) with
        | none =>
            right; left
            have : rsuCountIn rsus rest = 0 := by
              apply List.countP_eq_zero.mpr
              intro a ha
              have := List.find?_eq_none.mp hr a ha
              simpa using this
            simp [this]
        | some r =>
            cases hv : prim.reverse.find? (fun n => ! isRsu rsus n) with
            | none =>
                right; right
                apply List.countP_eq_zero.mpr
                intro a ha
                have := List.find?_eq_none.mp hv a (by
                  simpa using ha)
                simpa using this
            | some v =>
                have hrR : isRsu rsus r = true := List.find?_some hr
                have hvV : isRsu rsus v = false := by
                  have := List.find?_some hv
                  simpa using this
                have hprim : rsuCountIn rsus
                    ((eraseFirstP (fun n => ! isRsu rsus n)
                      prim.reverse).reverse ++ [r])
                    = rsuCountIn rsus prim + 1 := by
                  unfold rsuCountIn
                  rw [List.countP_append, List.countP_reverse,
                    countP_eraseFirstP_not (isRsu rsus) prim.reverse v hv,
                    List.countP_reverse]
                  simp [List.countP_cons, hrR]
                have hrest : rsuCountIn rsus
                      (eraseFirstP (isRsu rsus) rest ++ [v]) + 1
                    = rsuCountIn rsus rest := by
                  unfold rsuCountIn
                  rw [List.countP_append]
                  have := countP_eraseFirstP_self (isRsu rsus) rest r hr
                  simp [List.countP_cons, hvV]
                  omega
                have hle3 : need ≤ rsuCountIn rsus prim + 1 + fuel := by
                  have h0 : rsuCountIn rsus prim + 1 + fuel
                      = rsuCountIn rsus prim + (fuel + 1) := by ring
                  rw [h0]
                  exact hle
                have hle2 : need ≤ rsuCountIn rsus
                    ((eraseFirstP (fun n => ! isRsu rsus n)
                      prim.reverse).reverse ++ [r]) + fuel := by
                  rw [hprim]
                  exact hle3
                rcases ih _ _ hle2 with h1 | h2 | h3
                · exact Or.inl h1
                · right; left
                  exact h2.trans (by rw [hprim, ← hrest]; ring)
                · exact Or.inr (Or.inr h3)
      · rw [if_neg hlt]
        left
        exact Nat.le_of_not_lt hlt

/-- C5: whenever the candidate pool contains at least floor(G/3) RSUs, the
elected committee satisfies the RSU floor constraint: the number of RSU
members of the primary list is at least floor of the primary size over
three.  The election body is hidden in the source, so this is proved
against the spec-modelled algorithm. -/
theorem elect_rsu_floor (candidates rsus : List NodeID) (G K seed : Nat)
    (h : G / 3 ≤ rsuCountIn rsus candidates) :
    (electConsensusGroup candidates rsus G K seed).satisfiesRSUConstraint
      = true := by
  unfold electConsensusGroup ConsensusGroup.satisfiesRSUConstraint
  simp only [decide_eq_true_eq]
  have hperm : (List.insertionSort (vrfLE seed) candidates).Perm candidates :=
    List.perm_insertionSort _ _
  have hcount : rsuCountIn rsus (List.insertionSort (vrfLE seed) candidates)
      = rsuCountIn rsus candidates := hperm.countP_eq _
  have hsum : rsuCountIn rsus
        ((List.insertionSort (vrfLE seed) candidates).take G)
      + rsuCountIn rsus
        ((List.insertionSort (vrfLE seed) candidates).drop G)
      = rsuCountIn rsus candidates := by
    unfold rsuCountIn
    rw [← List.countP_append, List.take_append_drop]
    exact hperm.countP_eq _
  have hlen : ((List.insertionSort (vrfLE seed) candidates).take G).length
      ≤ G := by
    rw [List.length_take]
    exact min_le_left _ _
  have hplen := promoteLoop_length rsus (G / 3) (G / 3)
    ((List.insertionSort (vrfLE seed) candidates).take G)
    ((List.insertionSort (vrfLE seed) candidates).drop G)
  have hdiv : (promoteLoop rsus (G / 3) (G / 3)
      ((List.insertionSort (vrfLE seed) candidates).take G)
      ((List.insertionSort (vrfLE seed) candidates).drop G)).1.length / 3
      ≤ G / 3 := by
    apply Nat.div_le_div_right
    rw [hplen]
    exact hlen
  rcases promoteLoop_cases rsus (G / 3) (G / 3)
      ((List.insertionSort (vrfLE seed) candidates).take G)
      ((List.insertionSort (vrfLE seed) candidates).drop G)
      (Nat.le_add_left _ _) with h1 | h2 | h3
  · exact le_trans hdiv h1
  · rw [h2, hsum]
    exact le_trans hdiv h
  · have hfull : rsuCountIn rsus (promoteLoop rsus (G / 3) (G / 3)
        ((List.insertionSort (vrfLE seed) candidates).take G)
        ((List.insertionSort (vrfLE seed) candidates).drop G)).1
        = (promoteLoop rsus (G / 3) (G / 3)
        ((List.insertionSort (vrfLE seed) candidates).take G)
        ((List.insertionSort (vrfLE seed) candidates).drop G)).1.length := by
      unfold rsuCountIn
      rw [length_countP_split (isRsu rsus), h3]
      ring
    rw [hfull]
    exact Nat.div_le_self _ _

/-- Witness for C5 at a concrete pool of four vehicles and one RSU with
group size three and seed 21: the RSU is initially outside the top three
and the promotion step moves it in. -/
theorem elect_rsu_floor_witness :
    3 / 3 ≤ rsuCountIn ["r1"] ["v1", "v2", "v3", "v4", "r1"] ∧
    (electConsensusGroup ["v1", "v2", "v3", "v4", "r1"] ["r1"] 3 1
        21).satisfiesRSUConstraint = true :=
  ⟨by decide,
   elect_rsu_floor ["v1", "v2", "v3", "v4", "r1"] ["r1"] 3 1 21 (by decide)⟩

/-- C4: the spec-modelled election is a pure function of the candidate
list, the RSU list, the group size, the redundant count and the seed: two
calls on identical arguments return identical committees; and changing
only the seed changes the output on a concrete input (seed 0 and seed 1
select different primary pairs from four candidates). -/
theorem elect_pure_and_seed_dependent :
    (∀ (c1 c2 r1 r2 : List NodeID) (G1 G2 K1 K2 s1 s2 : Nat),
      c1 = c2 → r1 = r2 → G1 = G2 → K1 = K2 → s1 = s2 →
      electConsensusGroup c1 r1 G1 K1 s1 = electConsensusGroup c2 r2 G2 K2 s2) ∧
    electConsensusGroup ["n1", "n2", "n3", "n4"] ["n1"] 2 1 0
      ≠ electConsensusGroup ["n1", "n2", "n3", "n4"] ["n1"] 2 1 1 := by
  constructor
  · intro c1 c2 r1 r2 G1 G2 K1 K2 s1 s2 hc hr hG hK hs
    rw [hc, hr, hG, hK, hs]
  · decide

/-- Witness for the determinism half of C4 at concrete arguments. -/
theorem elect_pure_witness :
    electConsensusGroup ["a"] [] 1 0 5 = electConsensusGroup ["a"] [] 1 0 5 :=
  elect_pure_and_seed_dependent.1 ["a"] ["a"] [] [] 1 1 0 0 5 5
    rfl rfl rfl rfl rfl

/-- Helper: looking up a different key than the one set is unchanged. -/
theorem alookup_aset_ne {K V : Type} [DecidableEq K] (m : List (K × V))
    (k1 k2 : K) (v : V) (h : k1 ≠ k2) :
    alookup (aset m k1 v) k2 = alookup m k2 := by
  induction m with
  | nil => simp [aset, alookup, h]
  | cons p rest ih =>
      obtain ⟨a, b⟩ := p
      by_cases ha : a = k1
      · subst ha
        simp [aset, alookup, h]
      · by_cases hk : a = k2 <;> simp [aset, alookup, ha, hk, ih, Ne.symm h]

/-- Helper: with a single shard holding exactly the maximum number of
members, no shard can accept the joining node and the best-fit search
returns minus one. -/
theorem getShardForLocation_single_full (m : RegionalShardManager)
    (loc : GeoCoord) (sid : ShardID) (s : ShardInfo)
    (hsh : m.shards = [(sid, s)])
    (hfull : s.members.length = m.maxShardSize) :
    RegionalShardManager.getShardForLocation m loc = -1 := by
  have hacc : RegionalShardManager.canAcceptMember m sid = false := by
    unfold RegionalShardManager.canAcceptMember
    rw [hsh]
    simp [alookup, hfull]
  unfold RegionalShardManager.getShardForLocation
  rw [hsh]
  simp [RegionalShardManager.gsflGo, hacc]

/-- C9 counterexample: a shard holding exactly maxShardSize members (two,
with the manager configured for a maximum of two) receives one more
add_node at a location inside its radius; no split happens — instead the
node is placed in a freshly created shard 1 while shard 0 keeps its two
members, refuting the claim that the join splits the full shard. -/
theorem shard_split_on_join_counterexample :
    mgrFull.shards = [(0, fullShard)] ∧
    fullShard.members.length = mgrFull.maxShardSize ∧
    fullShard.containsLoc { latitude := 0, longitude := 1 } = true ∧
    (RegionalShardManager.addNode mgrFull "n3"
      { latitude := 0, longitude := 1 } (1 / 2)).2.totalSplits = 0 ∧
    (RegionalShardManager.addNode mgrFull "n3"
      { latitude := 0, longitude := 1 } (1 / 2)).1 = 1 ∧
    alookup (RegionalShardManager.addNode mgrFull "n3"
      { latitude := 0, longitude := 1 } (1 / 2)).2.shards 0
      = some fullShard := by decide

/-- C9 (amended): for a manager whose only shard holds exactly
maxShardSize members, one more add_node targeting any location does not
split that shard: the full shard cannot accept the node, so a new shard
with the next free id is created, the node becomes its only member, and
the full shard's record is untouched; and one remove_node whose departure
leaves the member count at or above minShardSize (and nonempty) triggers
neither a split nor a merge and only removes the member. -/
theorem shard_at_capacity_behavior :
    (∀ (m : RegionalShardManager) (n : NodeID) (loc : GeoCoord) (rep : ℚ)
       (sid : ShardID) (s : ShardInfo),
       m.shards = [(sid, s)] →
       s.members.length = m.maxShardSize →
       1 ≤ m.maxShardSize →
       alookup m.nodeShardMap n = none →
       sid ≠ m.nextShardID →
       (RegionalShardManager.addNode m n loc rep).1 = m.nextShardID ∧
       (RegionalShardManager.addNode m n loc rep).2.totalSplits
         = m.totalSplits ∧
       alookup (RegionalShardManager.addNode m n loc rep).2.shards sid
         = some s ∧
       (∃ t, alookup (RegionalShardManager.addNode m n loc rep).2.shards
           m.nextShardID = some t ∧ t.members = [n])) ∧
    (∀ (m : RegionalShardManager) (n : NodeID) (sid : ShardID)
       (s : ShardInfo),
       alookup m.nodeShardMap n = some sid →
       alookup m.shards sid = some s →
       m.minShardSize ≤ (s.members.erase n).length →
       s.members.erase n ≠ [] →
       (RegionalShardManager.removeNode m n).totalSplits = m.totalSplits ∧
       (RegionalShardManager.removeNode m n).totalMerges = m.totalMerges ∧
       ∃ s2, alookup (RegionalShardManager.removeNode m n).shards sid
           = some s2 ∧ s2.members = s.members.erase n) := by
  constructor
  · intro m n loc rep sid s hsh hfull hmax hn hneq
    have hg : RegionalShardManager.getShardForLocation
        { m with nodeLocationMap := aset m.nodeLocationMap n loc,
                 nodeReputationMap := aset m.nodeReputationMap n rep } loc
        = -1 := by
      apply getShardForLocation_single_full _ _ sid s
      · simpa using hsh
      · simpa using hfull
    simp only [RegionalShardManager.addNode, hn, hg]
    simp only [ite_true, RegionalShardManager.createShard,
      RegionalShardManager.electLeader, RegionalShardManager.shouldSplitShard,
      insertSet, alookup_aset_self, List.not_mem_nil, List.nil_append,
      if_false, ite_false]
    rw [if_neg (by simp only [List.length_singleton, decide_eq_true_eq]; omega)]
    refine ⟨trivial, rfl, ?_, ?_⟩
    · rw [alookup_aset_ne _ _ _ _ (Ne.symm hneq),
        alookup_aset_ne _ _ _ _ (Ne.symm hneq),
        alookup_aset_ne _ _ _ _ (Ne.symm hneq), hsh]
      simp [alookup]
    · exact ⟨_, alookup_aset_self _ _ _, rfl⟩
  · intro m n sid s hn hs hmin hne
    have hml : ¬ ((s.members.erase n).length < m.minShardSize) :=
      Nat.not_lt.mpr hmin
    simp only [RegionalShardManager.removeNode, hn, hs,
      RegionalShardManager.electLeader, RegionalShardManager.shouldMergeShard,
      alookup_aset_self, ne_eq, hne, hml]
    by_cases hl : s.leader = n
    · simp only [hl, ite_true, if_true, eq_self_iff_true, true_and,
        not_false_eq_true, and_true, alookup_aset_self, hne, hml,
        not_false_iff]
      simp [alookup_aset_self, hne, hml]
    · simp only [hl, if_false, ite_false, false_and, not_false_eq_true,
        alookup_aset_self, hne, hml]
      simp [alookup_aset_self, hne, hml, hl]

/-- Witness for the amended C9 theorem on the concrete full shard: the
joining node n3 lands in the newly allocated shard 1, and removing n2
leaves the merge counter untouched. -/
theorem shard_at_capacity_behavior_witness :
    (RegionalShardManager.addNode mgrFull "n3"
      { latitude := 0, longitude := 1 } (1 / 2)).1 = mgrFull.nextShardID ∧
    (RegionalShardManager.removeNode mgrFull "n2").totalMerges
      = mgrFull.totalMerges :=
  ⟨(shard_at_capacity_behavior.1 mgrFull "n3"
      { latitude := 0, longitude := 1 } (1 / 2) 0 fullShard
      (by decide) (by decide) (by decide) (by decide) (by decide)).1,
   (shard_at_capacity_behavior.2 mgrFull "n2" 0 fullShard
      (by decide) (by decide) (by decide) (by decide)).2.1⟩

/-- C10: add_node is idempotent for already-placed nodes: when the node
already has a shard, addNode returns that shard id and the manager state
completely unchanged; the new location and reputation arguments are not
recorded and no shard creation, leader election or split happens. -/
theorem add_node_idempotent (m : RegionalShardManager) (n : NodeID)
    (loc : GeoCoord) (rep : ℚ) (sid : ShardID)
    (h : alookup m.nodeShardMap n = some sid) :
    RegionalShardManager.addNode m n loc rep = (sid, m) := by
  unfold RegionalShardManager.addNode
  rw [h]

/-- Witness for C10: re-adding the placed node n1 with a different
location and reputation returns shard 0 and the unchanged manager. -/
theorem add_node_idempotent_witness :
    alookup mgrFull.nodeShardMap "n1" = some 0 ∧
    RegionalShardManager.addNode mgrFull "n1"
      { latitude := 5, longitude := 5 } (1 / 4) = (0, mgrFull) :=
  ⟨by decide,
   add_node_idempotent mgrFull "n1" { latitude := 5, longitude := 5 } (1 / 4)
     0 (by decide)⟩

/-- C7 counterexample: recording an event for a node unknown to the empty
manager leaves the node unregistered — no auto-registration happens. -/
theorem record_event_unregistered_counterexample :
    VRMManager.isRegistered
      (VRMManager.recordEvent VRMManager.emptyMgr "n1"
        ReputationEvent.SUCCESSFUL_TX) "n1" = false := rfl

/-- C7 (amended): recording an event for an unregistered node is a no-op:
the manager state is returned unchanged, so the node stays unregistered
and the event is dropped. -/
theorem record_event_unregistered_noop (m : VRMManager) (n : NodeID)
    (e : ReputationEvent) (h : VRMManager.isRegistered m n = false) :
    VRMManager.recordEvent m n e = m := by
  unfold VRMManager.recordEvent
  unfold VRMManager.isRegistered at h
  cases hl : alookup m.records n with
  | none => rfl
  | some r =>
      rw [hl] at h
      simp at h

/-- Witness for the amended C7 theorem on the empty manager. -/
theorem record_event_unregistered_noop_witness :
    VRMManager.isRegistered VRMManager.emptyMgr "n1" = false ∧
    VRMManager.recordEvent VRMManager.emptyMgr "n1"
      ReputationEvent.FAILED_TX = VRMManager.emptyMgr :=
  ⟨rfl, record_event_unregistered_noop VRMManager.emptyMgr "n1"
    ReputationEvent.FAILED_TX rfl⟩

/-- Helper: clamping is the identity on the unit interval. -/
theorem clampReputation_eq_self (x : ℝ) (h0 : 0 ≤ x) (h1 : x ≤ 1) :
    clampReputation x = x := by
  unfold clampReputation
  rw [if_neg (not_lt.mpr h0), if_neg (not_lt.mpr h1)]

/-- Helper: every marginal-decay event has a positive base weight. -/
theorem baseWeight_pos (e : ReputationEvent)
    (h : (getEventWeight e).useMarginalDecay = true) :
    0 < (getEventWeight e).baseWeight := by
  cases e <;> simp [getEventWeight] at h ⊢ <;> norm_num

/-- Helper: the reputation-relevant projections of recordEventR on a
marginal-decay event: the returned delta is the base weight divided by
one plus the current final reputation, the local performance becomes the
clamped sum, and the global component and interaction count follow the
re-anchor rule. -/
theorem recordEventR_pos_proj (r : ReputationRecord) (e : ReputationEvent)
    (h : (getEventWeight e).useMarginalDecay = true) :
    (recordEventR r e).2
      = (getEventWeight e).baseWeight / (1 + r.getFinalReputation) ∧
    (recordEventR r e).1.localPerformance
      = clampReputation (r.localPerformance + (recordEventR r e).2) ∧
    (recordEventR r e).1.globalReputation
      = (if 100 ≤ r.localInteractionCount + 1 then
          clampReputation (r.localPerformance + (recordEventR r e).2)
        else r.globalReputation) ∧
    (recordEventR r e).1.localInteractionCount
      = (if 100 ≤ r.localInteractionCount + 1 then 0
        else r.localInteractionCount + 1) := by
  cases e <;>
    simp_all [recordEventR, applyDelta, getEventWeight,
      EventWeight.getEffectiveWeight] <;>
    split <;> simp_all

/-- C3 (amended): for every registered record and positive (marginal
decay) reputation event the applied delta equals beta divided by one plus
the current final reputation, and every negative event applies the
constant delta minus gamma; the strict diminishing of two successive
positive deltas holds whenever the record's local performance is at least
its global reputation and the first delta does not clamp at one — in
particular from the default registration state — but not in general (see
the counterexample). -/
theorem reputation_marginal_delta :
    (∀ (r : ReputationRecord) (e : ReputationEvent),
      (getEventWeight e).useMarginalDecay = true →
      (recordEventR r e).2
        = (getEventWeight e).baseWeight / (1 + r.getFinalReputation)) ∧
    (∀ (r : ReputationRecord) (e : ReputationEvent),
      (getEventWeight e).useMarginalDecay = false →
      (recordEventR r e).2 = -(getEventWeight e).baseWeight) ∧
    (∀ (r : ReputationRecord) (e : ReputationEvent),
      (getEventWeight e).useMarginalDecay = true →
      0 ≤ r.globalReputation →
      r.globalReputation ≤ r.localPerformance →
      r.localPerformance + (recordEventR r e).2 ≤ 1 →
      (recordEventR (recordEventR r e).1 e).2 < (recordEventR r e).2) := by
  refine ⟨fun r e h => (recordEventR_pos_proj r e h).1, ?_, ?_⟩
  · intro r e h
    cases e <;>
      simp_all [recordEventR, getEventWeight, EventWeight.getEffectiveWeight]
  · intro r e hdec hg0 hgl hclamp
    obtain ⟨hd1, hlp, hgr, hni⟩ := recordEventR_pos_proj r e hdec
    set δ := (recordEventR r e).2 with hδ
    set b := (getEventWeight e).baseWeight with hbdef
    have hb : 0 < b := baseWeight_pos e hdec
    set N := r.localInteractionCount with hN
    set w0 := Real.exp (-(0.1) * (N : ℝ)) with hw0
    have hR0 : r.getFinalReputation
        = w0 * r.globalReputation + (1 - w0) * r.localPerformance := rfl
    have hw0pos : 0 < w0 := Real.exp_pos _
    have hw0le : w0 ≤ 1 := by
      rw [hw0]
      rw [Real.exp_le_one_iff]
      nlinarith [Nat.cast_nonneg (α := ℝ) N]
    have hl0 : 0 ≤ r.localPerformance := le_trans hg0 hgl
    have hR0le : r.getFinalReputation ≤ r.localPerformance := by
      rw [hR0]
      nlinarith [mul_nonneg hw0pos.le (sub_nonneg.mpr hgl)]
    have hR0ge : 0 ≤ r.getFinalReputation := by
      rw [hR0]
      nlinarith [mul_nonneg hw0pos.le hg0,
        mul_nonneg (sub_nonneg.mpr hw0le) hl0]
    have h1R0 : 0 < 1 + r.getFinalReputation := by linarith
    have hδpos : 0 < δ := by
      rw [hd1]
      exact div_pos hb h1R0
    have hclampEq : clampReputation (r.localPerformance + δ)
        = r.localPerformance + δ :=
      clampReputation_eq_self _ (by linarith) (by linarith)
    set r1 := (recordEventR r e).1 with hr1
    rw [hclampEq] at hlp hgr
    have hd2 : (recordEventR r1 e).2
        = b / (1 + r1.getFinalReputation) :=
      (recordEventR_pos_proj r1 e hdec).1
    rw [hd2, hd1]
    apply div_lt_div_of_pos_left hb h1R0
    have hR1def : r1.getFinalReputation
        = Real.exp (-(0.1) * (r1.localInteractionCount : ℝ))
            * r1.globalReputation +
          (1 - Real.exp (-(0.1) * (r1.localInteractionCount : ℝ)))
            * r1.localPerformance := rfl
    clear hδ hr1
    clear_value δ r1
    by_cases hre : 100 ≤ N + 1
    · rw [if_pos hre] at hgr hni
      have hR1 : r1.getFinalReputation = r.localPerformance + δ := by
        rw [hR1def, hgr, hlp, hni]
        simp [Real.exp_zero]
      rw [hR1]
      linarith
    · rw [if_neg hre] at hgr hni
      set w1 := Real.exp (-(0.1) * ((N : ℝ) + 1)) with hw1
      have hcast : (((N + 1 : ℕ)) : ℝ) = (N : ℝ) + 1 := by push_cast; ring
      have hR1 : r1.getFinalReputation
          = w1 * r.globalReputation + (1 - w1) * (r.localPerformance + δ) := by
        rw [hR1def, hgr, hlp, hni, hcast]
      have hw1ltw0 : w1 < w0 := by
        rw [hw1, hw0]
        rw [Real.exp_lt_exp]
        nlinarith [Nat.cast_nonneg (α := ℝ) N]
      have hw1lt1 : w1 < 1 := by
        rw [hw1]
        rw [Real.exp_lt_one_iff]
        nlinarith [Nat.cast_nonneg (α := ℝ) N]
      clear hw1 hw0 hN hR1def
      clear_value w1 w0 N
      rw [hR1, hR0]
      nlinarith [mul_nonneg (sub_nonneg.mpr hw1ltw0.le) (sub_nonneg.mpr hgl),
        mul_pos (sub_pos.mpr hw1lt1) hδpos]

/-- Witness for the amended C3 theorem: from the default registration
state (both components one half) the second of two successive valid
proposal rewards is strictly smaller. -/
theorem reputation_marginal_delta_witness :
    (recordEventR
        (recordEventR (ReputationRecord.mkFresh "w")
          ReputationEvent.PROPOSE_VALID_BLOCK).1
        ReputationEvent.PROPOSE_VALID_BLOCK).2
      < (recordEventR (ReputationRecord.mkFresh "w")
          ReputationEvent.PROPOSE_VALID_BLOCK).2 := by
  have hR : (ReputationRecord.mkFresh "w").getFinalReputation = 0.5 := by
    simp [ReputationRecord.getFinalReputation, ReputationRecord.mkFresh,
      Real.exp_zero]
  have hd1 : (recordEventR (ReputationRecord.mkFresh "w")
      ReputationEvent.PROPOSE_VALID_BLOCK).2 = 0.05 / (1 + 0.5) := by
    rw [reputation_marginal_delta.1 (ReputationRecord.mkFresh "w")
      ReputationEvent.PROPOSE_VALID_BLOCK (by simp [getEventWeight]), hR]
    norm_num [getEventWeight]
  exact reputation_marginal_delta.2.2 (ReputationRecord.mkFresh "w")
    ReputationEvent.PROPOSE_VALID_BLOCK (by simp [getEventWeight])
    (by norm_num [ReputationRecord.mkFresh])
    (by norm_num [ReputationRecord.mkFresh])
    (by rw [hd1]; norm_num [ReputationRecord.mkFresh])

/-- C3 counterexample: for the reachable record with global reputation
one half, local performance 0.3 and one interaction (the default state
after a single malicious-behavior penalty), two successive valid-proposal
rewards have a strictly increasing delta — the second delta exceeds the
first, refuting the claimed unconditional strict decrease.  The increase
happens because the growing interaction count shifts weight from the
higher global component to the lower local one, lowering the final
reputation faster than the reward raises it. -/
theorem reputation_marginal_counterexample :
    (recordEventR dentedRecord ReputationEvent.PROPOSE_VALID_BLOCK).2
      < (recordEventR
          (recordEventR dentedRecord ReputationEvent.PROPOSE_VALID_BLOCK).1
          ReputationEvent.PROPOSE_VALID_BLOCK).2 := by
  have hfg : dentedRecord.globalReputation = 0.5 := by
    norm_num [dentedRecord, recordEventR, getEventWeight,
      EventWeight.getEffectiveWeight, applyDelta, ReputationRecord.mkFresh,
      clampReputation]
  have hfl : dentedRecord.localPerformance = 0.3 := by
    norm_num [dentedRecord, recordEventR, getEventWeight,
      EventWeight.getEffectiveWeight, applyDelta, ReputationRecord.mkFresh,
      clampReputation]
  have hfn : dentedRecord.localInteractionCount = 1 := by
    norm_num [dentedRecord, recordEventR, getEventWeight,
      EventWeight.getEffectiveWeight, applyDelta, ReputationRecord.mkFresh,
      clampReputation]
  have ha : (0.9 : ℝ) ≤ Real.exp (-(0.1)) := by
    have := Real.add_one_le_exp (-(0.1))
    linarith
  have hd : Real.exp (-(0.1)) ≤ 10 / 11 := by
    have h1 : (1.1 : ℝ) ≤ Real.exp 0.1 := by
      have := Real.add_one_le_exp (0.1 : ℝ)
      linarith
    rw [Real.exp_neg]
    rw [show (10 : ℝ) / 11 = (1.1)⁻¹ by norm_num]
    exact inv_anti₀ (by norm_num) h1
  have hc : (0.8 : ℝ) ≤ Real.exp (-(0.2)) := by
    have := Real.add_one_le_exp (-(0.2))
    linarith
  have hb2 : Real.exp (-(0.2)) ≤ 5 / 6 := by
    have h1 : (1.2 : ℝ) ≤ Real.exp 0.2 := by
      have := Real.add_one_le_exp (0.2 : ℝ)
      linarith
    rw [Real.exp_neg]
    rw [show (5 : ℝ) / 6 = (1.2)⁻¹ by norm_num]
    exact inv_anti₀ (by norm_num) h1
  have hR01 : dentedRecord.getFinalReputation
      = Real.exp (-(0.1)) * 0.5 + (1 - Real.exp (-(0.1))) * 0.3 := by
    simp only [ReputationRecord.getFinalReputation, hfn, hfg, hfl]
    norm_num
  have hR01low : (0.48 : ℝ) ≤ dentedRecord.getFinalReputation := by
    rw [hR01]; linarith
  have hR01high : dentedRecord.getFinalReputation ≤ (0.49 : ℝ) := by
    rw [hR01]; linarith
  obtain ⟨hd1, hlp1, hgr1, hni1⟩ :=
    recordEventR_pos_proj dentedRecord ReputationEvent.PROPOSE_VALID_BLOCK
      (by simp [getEventWeight])
  rw [hfn] at hgr1 hni1
  rw [if_neg (by norm_num)] at hgr1
  rw [if_neg (by norm_num)] at hni1
  rw [hfg] at hgr1
  rw [hfl] at hlp1
  have hbw : (getEventWeight ReputationEvent.PROPOSE_VALID_BLOCK).baseWeight
      = 0.05 := by simp [getEventWeight]
  rw [hbw] at hd1
  set δ := (recordEventR dentedRecord ReputationEvent.PROPOSE_VALID_BLOCK).2
    with hδ
  have h1R01 : (0 : ℝ) < 1 + dentedRecord.getFinalReputation := by linarith
  have hδpos : 0 < δ := by
    rw [hd1]
    positivity
  have hδub : δ ≤ 0.05 / 1.48 := by
    rw [hd1]
    exact div_le_div_of_nonneg_left (by norm_num) (by norm_num) (by linarith)
  have hclampEq : clampReputation (0.3 + δ) = 0.3 + δ :=
    clampReputation_eq_self _ (by linarith) (by nlinarith)
  rw [hclampEq] at hlp1
  set r2 := (recordEventR dentedRecord ReputationEvent.PROPOSE_VALID_BLOCK).1
    with hr2
  have hR1 : r2.getFinalReputation
      = Real.exp (-(0.2)) * 0.5
        + (1 - Real.exp (-(0.2))) * (0.3 + δ) := by
    simp only [ReputationRecord.getFinalReputation, hni1, hgr1, hlp1]
    norm_num
  have hkey : r2.getFinalReputation < dentedRecord.getFinalReputation := by
    rw [hR1]
    have hprod : 0 ≤ (Real.exp (-(0.2)) - 0.8) * δ :=
      mul_nonneg (by linarith) hδpos.le
    nlinarith
  have h1R1 : (0 : ℝ) < 1 + r2.getFinalReputation := by
    rw [hR1]
    nlinarith [mul_nonneg (show (0:ℝ) ≤ 1 - Real.exp (-(0.2)) by linarith)
      (show (0:ℝ) ≤ 0.3 + δ by linarith)]
  obtain ⟨hd2, -, -, -⟩ :=
    recordEventR_pos_proj r2 ReputationEvent.PROPOSE_VALID_BLOCK
      (by simp [getEventWeight])
  rw [hbw] at hd2
  rw [hd1, hd2]
  exact div_lt_div_of_pos_left (by norm_num) h1R1 (by linarith)

/-- Witness for the amended C8 theorem: a header at height 1 correctly
chained onto a stored genesis header is accepted and stored. -/
theorem sync_header_amended_witness :
    (LightweightSync.syncHeader syncState0 header1).1 = true ∧
    LightweightSync.getHeader
        (LightweightSync.syncHeader syncState0 header1).2 1 = some header1 := by
  have h := sync_header_amended syncState0 header1
  have hacc : (LightweightSync.syncHeader syncState0 header1).1 = true :=
    (h.2.1 (by decide)).mpr
      (Or.inr ⟨genesisHeader, by decide, by decide, by decide⟩)
  exact ⟨hacc, (h.2.2.1 hacc).1⟩

end TriBFT
